import Mathlib

/-!
# CSS selector builder (`src/05-objects-tasks.js`) — shallow embedding

The only stateful component of the repository is the `Builder` class of
`src/05-objects-tasks.js` (lines 127–213) together with its facade object
`cssSelectorBuilder` (lines 215–243).  A `Builder` instance holds five
mutable fields (`useElement`, `useId`, `usePseudoElement`, `order`,
`value`); its six append methods either throw one of two errors or mutate
the instance in place and return it; `combine` concatenates the `value`
fields of two other builders into `this.value`; `stringify` returns
`this.value` and resets it to the empty string.

We embed each method as a pure function by explicit state passing: a method
on `this` becomes a function taking the pre-state and returning the
post-state.  A JavaScript `throw` is modelled as returning `some err`
together with the state at the throw point (in the source both `throw`
statements of every method precede every assignment, so that state is the
entry state).  `combine` reads `selector1.value` and `selector2.value` and
assigns only `this.value`, so its embedding returns the post-states of all
three objects involved.
-/

set_option autoImplicit false

namespace CssBuilder

/-- The two error kinds of the builder.  The source distinguishes them by
message: `error1` (duplicate part) and `error2` (wrong order); the spec
names them `DuplicateSelectorPartError` and `SelectorOrderError`. -/
inductive Err where
  | duplicateSelectorPart
  | selectorOrder
deriving DecidableEq, Repr

/-- The message strings assigned in the constructor (`this.error1`,
`this.error2`, source lines 129–130). -/
def Err.message : Err → String
  | .duplicateSelectorPart =>
      "Element, id and pseudo-element should not occur more then one time inside the selector"
  | .selectorOrder =>
      "Selector parts should be arranged in the following order: element, id, class, attribute, pseudo-class, pseudo-element"

/-- The mutable fields of a `Builder` instance (constructor, lines 128–138).
The two error-message fields are constants and are modelled by
`Err.message` instead of being carried in the state. -/
structure Builder where
  useElement : Bool
  useId : Bool
  usePseudoElement : Bool
  order : Nat
  value : String
deriving DecidableEq, Repr

/-- `new Builder()` (lines 128–138). -/
def Builder.init : Builder :=
  { useElement := false, useId := false, usePseudoElement := false
  , order := 0, value := "" }

/-- `element(value)` (lines 140–149). -/
def Builder.element (b : Builder) (v : String) : Option Err × Builder :=
  if b.useElement then (some Err.duplicateSelectorPart, b)
  else if b.order > 1 then (some Err.selectorOrder, b)
  else (none, { b with order := 1, value := b.value ++ v, useElement := true })

/-- `id(value)` (lines 151–160). -/
def Builder.id (b : Builder) (v : String) : Option Err × Builder :=
  if b.useId then (some Err.duplicateSelectorPart, b)
  else if b.order > 2 then (some Err.selectorOrder, b)
  else (none, { b with order := 2, value := b.value ++ ("#" ++ v), useId := true })

/-- `class(value)` (lines 162–169). -/
def Builder.«class» (b : Builder) (v : String) : Option Err × Builder :=
  if b.order > 3 then (some Err.selectorOrder, b)
  else (none, { b with order := 3, value := b.value ++ ("." ++ v) })

/-- `attr(value)` (lines 171–178). -/
def Builder.attr (b : Builder) (v : String) : Option Err × Builder :=
  if b.order > 4 then (some Err.selectorOrder, b)
  else (none, { b with order := 4, value := b.value ++ ("[" ++ v ++ "]") })

/-- `pseudoClass(value)` (lines 180–187). -/
def Builder.pseudoClass (b : Builder) (v : String) : Option Err × Builder :=
  if b.order > 5 then (some Err.selectorOrder, b)
  else (none, { b with order := 5, value := b.value ++ (":" ++ v) })

/-- `pseudoElement(value)` (lines 189–198). -/
def Builder.pseudoElement (b : Builder) (v : String) : Option Err × Builder :=
  if b.usePseudoElement then (some Err.duplicateSelectorPart, b)
  else if b.order > 6 then (some Err.selectorOrder, b)
  else (none, { b with order := 6, value := b.value ++ ("::" ++ v), usePseudoElement := true })

/-- `combine(selector1, combinator, selector2)` (lines 200–204).  Its only
assignment is `this.value += ...`; it reads the operands' `value` fields
without calling `stringify` on them, so the post-states of `selector1` and
`selector2` are their pre-states.  The result triple is
(`this` after the call, `selector1` after the call, `selector2` after the call). -/
def Builder.combine (b s1 : Builder) (comb : String) (s2 : Builder) :
    Builder × Builder × Builder :=
  ({ b with value := b.value ++ (s1.value ++ " " ++ comb ++ " " ++ s2.value) }, s1, s2)

/-- `stringify()` (lines 206–212): returns the accumulated string and the
post-state, in which only `value` has been reset to `''`. -/
def Builder.stringify (b : Builder) : String × Builder :=
  (b.value, { b with value := "" })

/-! ## The facade `cssSelectorBuilder` (lines 215–243) -/

/-- `cssSelectorBuilder.element` (lines 216–218). -/
def cssSelectorBuilder.element (v : String) : Option Err × Builder :=
  Builder.init.element v

/-- `cssSelectorBuilder.id` (lines 220–222). -/
def cssSelectorBuilder.id (v : String) : Option Err × Builder :=
  Builder.init.id v

/-- `cssSelectorBuilder.class` (lines 224–226). -/
def cssSelectorBuilder.«class» (v : String) : Option Err × Builder :=
  Builder.init.«class» v

/-- `cssSelectorBuilder.attr` (lines 228–230). -/
def cssSelectorBuilder.attr (v : String) : Option Err × Builder :=
  Builder.init.attr v

/-- `cssSelectorBuilder.pseudoClass` (lines 232–234). -/
def cssSelectorBuilder.pseudoClass (v : String) : Option Err × Builder :=
  Builder.init.pseudoClass v

/-- `cssSelectorBuilder.pseudoElement` (lines 236–238). -/
def cssSelectorBuilder.pseudoElement (v : String) : Option Err × Builder :=
  Builder.init.pseudoElement v

/-- `cssSelectorBuilder.combine` (lines 240–242): `new Builder().combine(...)`. -/
def cssSelectorBuilder.combine (s1 : Builder) (comb : String) (s2 : Builder) :
    Builder × Builder × Builder :=
  Builder.init.combine s1 comb s2

/-! ## Selector-part categories

The spec's table of categories (§4.1): each append method handles one
category, with an ordinal and a token format. -/

/-- The six selector-part categories. -/
inductive Cat where
  | element | id | «class» | attr | pseudoClass | pseudoElement
deriving DecidableEq, Repr

/-- The ordinal of a category (the value the method stores into
`this.order`, and the bound of its `this.order > _` check). -/
def Cat.ordinal : Cat → Nat
  | .element => 1
  | .id => 2
  | .«class» => 3
  | .attr => 4
  | .pseudoClass => 5
  | .pseudoElement => 6

/-- The formatted token each method appends to `this.value`. -/
def Cat.token : Cat → String → String
  | .element, v => v
  | .id, v => "#" ++ v
  | .«class», v => "." ++ v
  | .attr, v => "[" ++ v ++ "]"
  | .pseudoClass, v => ":" ++ v
  | .pseudoElement, v => "::" ++ v

/-- Whether the category's max count is 1 (guarded by a `use*` flag). -/
def Cat.maxOne : Cat → Bool
  | .element => true
  | .id => true
  | .pseudoElement => true
  | _ => false

/-- The guard flag of the category in a given state (`false` for the
unbounded categories, which have no flag). -/
def Cat.guardSet : Cat → Builder → Bool
  | .element, b => b.useElement
  | .id, b => b.useId
  | .pseudoElement, b => b.usePseudoElement
  | _, _ => false

/-- Whether the category is `element` (the appended state raises
`useElement` exactly for this category). -/
def Cat.isElement : Cat → Bool
  | .element => true
  | _ => false

/-- Whether the category is `id`. -/
def Cat.isId : Cat → Bool
  | .id => true
  | _ => false

/-- Whether the category is `pseudoElement`. -/
def Cat.isPseudoElement : Cat → Bool
  | .pseudoElement => true
  | _ => false

/-- Dispatch an append call by category. -/
def Builder.append (b : Builder) (c : Cat) (v : String) : Option Err × Builder :=
  match c with
  | .element => b.element v
  | .id => b.id v
  | .«class» => b.«class» v
  | .attr => b.attr v
  | .pseudoClass => b.pseudoClass v
  | .pseudoElement => b.pseudoElement v

/-- Run a chain of append calls on a builder.  A thrown error aborts the
chain, propagating the error and the state at the throw point. -/
def runAppends (b : Builder) : List (Cat × String) → Option Err × Builder
  | [] => (none, b)
  | (c, v) :: rest =>
    match b.append c v with
    | (none, b2) => runAppends b2 rest
    | (some e, b2) => (some e, b2)

/-- Concatenation, in order with no separators, of the formatted tokens of
a sequence of appends. -/
def tokens : List (Cat × String) → String
  | [] => ""
  | p :: rest => Cat.token p.1 p.2 ++ tokens rest

/-- The ordinals of the categories in the list are non-decreasing,
starting from `prev`. -/
def ordsNondecreasing : Nat → List Cat → Bool
  | _, [] => true
  | prev, c :: rest => decide (prev ≤ c.ordinal) && ordsNondecreasing c.ordinal rest

/-- A sequence of categories is in valid order when the ordinals are
non-decreasing (starting from the fresh builder's `order = 0`) and each
once-only category occurs at most once: element, id, class*, attribute*,
pseudo-class*, pseudo-element. -/
def validOrder (cs : List Cat) : Prop :=
  ordsNondecreasing 0 cs = true ∧
  cs.count Cat.element ≤ 1 ∧ cs.count Cat.id ≤ 1 ∧ cs.count Cat.pseudoElement ≤ 1

instance (cs : List Cat) : Decidable (validOrder cs) :=
  inferInstanceAs (Decidable (
    ordsNondecreasing 0 cs = true ∧
    cs.count Cat.element ≤ 1 ∧ cs.count Cat.id ≤ 1 ∧ cs.count Cat.pseudoElement ≤ 1))

example : (Builder.init.id "main").1 = none := by decide
example : ((Builder.init.id "main").2.«class» "container").2.value = "#main.container" := by decide
example : runAppends Builder.init [(Cat.id, "main"), (Cat.«class», "container"), (Cat.«class», "editable")]
    = (none, ⟨false, true, false, 3, "#main.container.editable"⟩) := by decide

/-! ## Characterisation of a single append

Every append method follows the same shape: a duplicate guard (for the
once-only categories), then the order guard `this.order > ordinal`, then
the mutation.  The following lemma states that shape uniformly. -/

/-- The uniform shape of one append call: duplicate guard first, then the
order guard, then the mutation setting `order` to the ordinal, appending
the token, and raising the category's flag. -/
theorem append_eq (b : Builder) (c : Cat) (v : String) :
    b.append c v =
      if c.guardSet b then (some Err.duplicateSelectorPart, b)
      else if c.ordinal < b.order then (some Err.selectorOrder, b)
      else (none,
        { b with
          order := c.ordinal,
          value := b.value ++ c.token v,
          useElement := b.useElement || c.isElement,
          useId := b.useId || c.isId,
          usePseudoElement := b.usePseudoElement || c.isPseudoElement }) := by
  cases c <;>
    simp [Builder.append, Builder.element, Builder.id, Builder.«class», Builder.attr,
      Builder.pseudoClass, Builder.pseudoElement, Cat.guardSet, Cat.ordinal, Cat.token,
      Cat.isElement, Cat.isId, Cat.isPseudoElement]

/-- C4: an append call that fails (with either error kind) leaves the
builder's accumulator, stage and guard flags exactly as they were: the
error is raised before any mutation. -/
theorem c4_failed_append_frame (b : Builder) (c : Cat) (v : String) (e : Err)
    (h : (b.append c v).1 = some e) : (b.append c v).2 = b := by
  rw [append_eq] at h ⊢
  by_cases h1 : c.guardSet b
  · simp [h1]
  · by_cases h2 : c.ordinal < b.order
    · simp [h1, h2]
    · simp [h1, h2] at h

/-- Witness for C4 at a concrete failing input: appending `id` to a builder
whose stage is already 3 fails and leaves the state unchanged. -/
theorem c4_failed_append_frame_witness :
    (Builder.append ⟨false, false, false, 3, ".c"⟩ Cat.id "x").2
      = ⟨false, false, false, 3, ".c"⟩ :=
  c4_failed_append_frame ⟨false, false, false, 3, ".c"⟩ Cat.id "x"
    Err.selectorOrder (by decide)

/-- C5: `combine(left, combinator, right)` followed by `render` returns
left's accumulated string, a space, the combinator, a space, and right's
accumulated string — for every combinator string; in particular
`combine(element('div'), '+', element('table'))` renders `'div + table'`,
and nesting a combine result as a left operand again joins with exactly
one space on each side of each combinator. -/
theorem c5_combine_render (l r t : Builder) (comb comb2 : String) :
    ((cssSelectorBuilder.combine l comb r).1).stringify.1
      = l.value ++ " " ++ comb ++ " " ++ r.value ∧
    ((cssSelectorBuilder.combine (cssSelectorBuilder.element "div").2 "+"
        (cssSelectorBuilder.element "table").2).1).stringify.1 = "div + table" ∧
    ((cssSelectorBuilder.combine ((cssSelectorBuilder.combine l comb r).1) comb2 t).1).stringify.1
      = (l.value ++ " " ++ comb ++ " " ++ r.value) ++ " " ++ comb2 ++ " " ++ t.value := by
  refine ⟨?_, by decide, ?_⟩ <;>
    simp [cssSelectorBuilder.combine, Builder.combine, Builder.stringify, Builder.init]

/-- C6: `render()` returns the accumulator content and empties it, so a
second `render()` with no intervening operation returns the empty string. -/
theorem c6_render_clears (b : Builder) :
    b.stringify.1 = b.value ∧
    (b.stringify.2).value = "" ∧
    ((b.stringify.2).stringify).1 = "" :=
  ⟨rfl, rfl, rfl⟩

/-- C7: `render()` leaves the stage and the three guard flags unchanged —
only the accumulator is cleared — so any append performed after a render
succeeds or fails exactly as it would have before the render. -/
theorem c7_render_keeps_guards (b : Builder) (c : Cat) (v : String) :
    (b.stringify.2).order = b.order ∧
    (b.stringify.2).useElement = b.useElement ∧
    (b.stringify.2).useId = b.useId ∧
    (b.stringify.2).usePseudoElement = b.usePseudoElement ∧
    ((b.stringify.2).append c v).1 = (b.append c v).1 := by
  refine ⟨rfl, rfl, rfl, rfl, ?_⟩
  rw [append_eq, append_eq]
  have hg : c.guardSet b.stringify.2 = c.guardSet b := by cases c <;> rfl
  have ho : (b.stringify.2).order = b.order := rfl
  rw [hg, ho]
  split
  · rfl
  · split <;> rfl

/-- C10: `combine` leaves both operand selectors completely unchanged —
their post-states equal their pre-states — so each operand still renders
afterwards to its full accumulated string. -/
theorem c10_combine_frame (b l r : Builder) (comb : String) :
    (cssSelectorBuilder.combine l comb r).2.1 = l ∧
    (cssSelectorBuilder.combine l comb r).2.2 = r ∧
    (b.combine l comb r).2.1 = l ∧
    (b.combine l comb r).2.2 = r ∧
    ((cssSelectorBuilder.combine l comb r).2.1).stringify.1 = l.value ∧
    ((cssSelectorBuilder.combine l comb r).2.2).stringify.1 = r.value :=
  ⟨rfl, rfl, rfl, rfl, rfl, rfl⟩

/-- C9: each of the six facade entry operations equals the corresponding
append operation invoked on a freshly constructed builder — the same
resulting state and the same error outcome. -/
theorem c9_facade_fresh_builder (v : String) :
    cssSelectorBuilder.element v = Builder.init.element v ∧
    cssSelectorBuilder.id v = Builder.init.id v ∧
    cssSelectorBuilder.«class» v = Builder.init.«class» v ∧
    cssSelectorBuilder.attr v = Builder.init.attr v ∧
    cssSelectorBuilder.pseudoClass v = Builder.init.pseudoClass v ∧
    cssSelectorBuilder.pseudoElement v = Builder.init.pseudoElement v :=
  ⟨rfl, rfl, rfl, rfl, rfl, rfl⟩

/-! ## Operations and the stage invariant -/

/-- One operation on a builder instance: an append call (which may fail),
a `combine` call (with the two operand builders and the combinator), or a
`stringify` call. -/
inductive Op where
  | append (c : Cat) (v : String)
  | combineWith (s1 : Builder) (comb : String) (s2 : Builder)
  | render

/-- The post-state of the receiver after one operation.  A failing append
leaves the state at the throw point. -/
def Builder.stepOp (b : Builder) : Op → Builder
  | .append c v => (b.append c v).2
  | .combineWith s1 comb s2 => (b.combine s1 comb s2).1
  | .render => b.stringify.2

/-- The post-state of the receiver after a sequence of operations. -/
def runOps (b : Builder) : List Op → Builder
  | [] => b
  | op :: rest => runOps (b.stepOp op) rest

/-- A single operation never decreases `order`: a failing append leaves it
unchanged, a successful append of category `c` can only raise it (the
order guard rules out `c.ordinal < order`), and `combine` and `stringify`
do not touch it. -/
theorem stepOp_order_le (b : Builder) (op : Op) : b.order ≤ (b.stepOp op).order := by
  cases op with
  | append c v =>
    show b.order ≤ (b.append c v).2.order
    rw [append_eq]
    by_cases h1 : c.guardSet b = true
    · simp [h1]
    · by_cases h2 : c.ordinal < b.order
      · simp [h1, h2]
      · simp [h1, h2]; omega
  | combineWith s1 comb s2 => exact le_refl _
  | render => exact le_refl _

/-- C8: the stage (`order`) is monotonically non-decreasing: it never
decreases across a single operation, nor across any sequence of
operations (successful or failing appends, `combine`, `render`). -/
theorem c8_stage_monotone (b : Builder) (op : Op) (ops : List Op) :
    b.order ≤ (b.stepOp op).order ∧ b.order ≤ (runOps b ops).order := by
  refine ⟨stepOp_order_le b op, ?_⟩
  induction ops generalizing b with
  | nil => exact le_refl _
  | cons o rest ih => exact le_trans (stepOp_order_le b o) (ih _)

/-! ## Guard flags under chains of appends -/

/-- Unfolding `runAppends` over a successful head append. -/
theorem runAppends_cons_ok {b b2 : Builder} {c : Cat} {v : String}
    (rest : List (Cat × String)) (h : b.append c v = (none, b2)) :
    runAppends b ((c, v) :: rest) = runAppends b2 rest := by
  show (match b.append c v with
        | (none, b2) => runAppends b2 rest
        | (some e, b2) => (some e, b2)) = runAppends b2 rest
  rw [h]

/-- Unfolding `runAppends` over a failing head append. -/
theorem runAppends_cons_err {b b2 : Builder} {c : Cat} {v : String} {e : Err}
    (rest : List (Cat × String)) (h : b.append c v = (some e, b2)) :
    runAppends b ((c, v) :: rest) = (some e, b2) := by
  show (match b.append c v with
        | (none, b2) => runAppends b2 rest
        | (some e, b2) => (some e, b2)) = (some e, b2)
  rw [h]

/-- An append call never clears a guard flag. -/
theorem guardSet_mono (b : Builder) (c : Cat) (v : String) (d : Cat)
    (hd : d.guardSet b = true) : d.guardSet (b.append c v).2 = true := by
  rw [append_eq]
  by_cases h1 : c.guardSet b = true
  · simpa [h1] using hd
  · by_cases h2 : c.ordinal < b.order
    · simpa [h1, h2] using hd
    · rw [if_neg h1, if_neg h2]
      cases d <;> simp_all [Cat.guardSet]

/-- A successful append of a once-only category raises its guard flag. -/
theorem guardSet_after_append (b : Builder) (c : Cat) (v : String)
    (hc : c.maxOne = true) (hs : (b.append c v).1 = none) :
    c.guardSet (b.append c v).2 = true := by
  rw [append_eq] at hs ⊢
  by_cases h1 : c.guardSet b = true
  · simp [h1] at hs
  · by_cases h2 : c.ordinal < b.order
    · simp [h1, h2] at hs
    · rw [if_neg h1, if_neg h2]
      cases c <;>
        simp_all [Cat.guardSet, Cat.maxOne, Cat.isElement, Cat.isId, Cat.isPseudoElement]

/-- An append of a category whose guard flag is set fails with the
duplicate error, before the order guard and before any mutation. -/
theorem append_guardSet_duplicate (b : Builder) (c : Cat) (v : String)
    (h : c.guardSet b = true) :
    b.append c v = (some Err.duplicateSelectorPart, b) := by
  rw [append_eq, if_pos h]

/-- Guard flags stay set across any chain of appends (also one aborted by
an error). -/
theorem guardSet_runAppends_mono (ops : List (Cat × String)) :
    ∀ (b : Builder) (d : Cat), d.guardSet b = true →
      d.guardSet (runAppends b ops).2 = true := by
  induction ops with
  | nil => intro b d h; exact h
  | cons p rest ih =>
    intro b d h
    obtain ⟨cp, vp⟩ := p
    have h2 : d.guardSet (b.append cp vp).2 = true := guardSet_mono b cp vp d h
    rcases hap : b.append cp vp with ⟨e, b2⟩
    rw [hap] at h2
    cases e with
    | some e => rw [runAppends_cons_err rest hap]; exact h2
    | none => rw [runAppends_cons_ok rest hap]; exact ih b2 d h2

/-- After a successful chain of appends containing a once-only category,
that category's guard flag is set on the resulting builder. -/
theorem guardSet_of_mem (ops : List (Cat × String)) :
    ∀ (b : Builder) (c : Cat), c.maxOne = true → c ∈ ops.map Prod.fst →
      (runAppends b ops).1 = none →
      c.guardSet (runAppends b ops).2 = true := by
  induction ops with
  | nil => intro b c _ hmem _; simp at hmem
  | cons p rest ih =>
    intro b c hc hmem hok
    obtain ⟨cp, vp⟩ := p
    rcases hap : b.append cp vp with ⟨e, b2⟩
    cases e with
    | some e =>
      rw [runAppends_cons_err rest hap] at hok
      simp at hok
    | none =>
      rw [runAppends_cons_ok rest hap] at hok ⊢
      rw [List.map_cons] at hmem
      rcases List.mem_cons.mp hmem with h | h
      · subst h
        have h2 : c.guardSet b2 = true := by
          have h3 := guardSet_after_append b c vp hc (by rw [hap])
          rwa [hap] at h3
        exact guardSet_runAppends_mono rest b2 c h2
      · exact ih b2 c hc h hok

/-- C2: on a builder on which a once-only category (element, id or
pseudo-element) has already been successfully appended, appending that
same category again fails with the duplicate error
(`DuplicateSelectorPartError`) and changes nothing. -/
theorem c2_once_only_duplicate (ops : List (Cat × String)) (c : Cat) (w : String)
    (h1 : (runAppends Builder.init ops).1 = none)
    (h2 : c ∈ ops.map Prod.fst)
    (h3 : c.maxOne = true) :
    ((runAppends Builder.init ops).2).append c w
      = (some Err.duplicateSelectorPart, (runAppends Builder.init ops).2) :=
  append_guardSet_duplicate _ c w (guardSet_of_mem ops Builder.init c h3 h2 h1)

/-- Witness for C2: appending `element` twice on the same builder raises
the duplicate error. -/
theorem c2_once_only_duplicate_witness :
    ((runAppends Builder.init [(Cat.element, "a")]).2).append Cat.element "b"
      = (some Err.duplicateSelectorPart, (runAppends Builder.init [(Cat.element, "a")]).2) :=
  c2_once_only_duplicate [(Cat.element, "a")] Cat.element "b"
    (by decide) (by decide) (by decide)

/-- Counterexample to C3 as stated: on the builder reached by
`element('a')` then `class('c')` (stage 3), appending `element` — ordinal
1, strictly below the stage — fails with the duplicate error, not with
`SelectorOrderError`: the duplicate guard is checked first. -/
theorem c3_counterexample :
    (runAppends Builder.init [(Cat.element, "a"), (Cat.«class», "c")]).1 = none ∧
    Cat.element.ordinal
      < ((runAppends Builder.init [(Cat.element, "a"), (Cat.«class», "c")]).2).order ∧
    (((runAppends Builder.init [(Cat.element, "a"), (Cat.«class», "c")]).2).append
        Cat.element "b").1 = some Err.duplicateSelectorPart ∧
    Err.duplicateSelectorPart ≠ Err.selectorOrder := by
  decide

/-- C3 (amended): appending a category whose ordinal is strictly less than
the current stage fails with `SelectorOrderError` provided the category's
once-only guard flag is not already set (when it is, the duplicate check
fires first and `DuplicateSelectorPartError` is raised instead); and
appending a category whose ordinal equals the current stage never raises
`SelectorOrderError`. -/
theorem c3_order_error (b : Builder) (c : Cat) (v : String) :
    (c.ordinal < b.order → c.guardSet b = false →
      b.append c v = (some Err.selectorOrder, b)) ∧
    (c.ordinal = b.order → (b.append c v).1 ≠ some Err.selectorOrder) := by
  constructor
  · intro hlt hg
    rw [append_eq, if_neg (by simp [hg]), if_pos hlt]
  · intro heq
    rw [append_eq]
    by_cases h1 : c.guardSet b = true
    · simp [h1]
    · rw [if_neg h1, if_neg (by omega)]
      simp

/-- Witness for C3 (amended): on a builder at stage 3 (after a `class`
append), `id` — ordinal 2 — fails with the order error, while `class` —
ordinal 3 — does not raise the order error. -/
theorem c3_order_error_witness :
    Builder.append ⟨false, false, false, 3, ".c"⟩ Cat.id "x"
        = (some Err.selectorOrder, ⟨false, false, false, 3, ".c"⟩) ∧
    (Builder.append ⟨false, false, false, 3, ".c"⟩ Cat.«class» "y").1
        ≠ some Err.selectorOrder :=
  ⟨(c3_order_error ⟨false, false, false, 3, ".c"⟩ Cat.id "x").1 (by decide) (by decide),
   (c3_order_error ⟨false, false, false, 3, ".c"⟩ Cat.«class» "y").2 (by decide)⟩

/-! ## Valid chains of appends (C1) -/

/-- `isElement` characterises the `element` category. -/
theorem Cat.isElement_iff (c : Cat) : c.isElement = true ↔ c = Cat.element := by
  cases c <;> simp [Cat.isElement]

/-- `isId` characterises the `id` category. -/
theorem Cat.isId_iff (c : Cat) : c.isId = true ↔ c = Cat.id := by
  cases c <;> simp [Cat.isId]

/-- `isPseudoElement` characterises the `pseudoElement` category. -/
theorem Cat.isPseudoElement_iff (c : Cat) :
    c.isPseudoElement = true ↔ c = Cat.pseudoElement := by
  cases c <;> simp [Cat.isPseudoElement]

/-- Main lemma for C1: from any state compatible with the remaining chain
(stage at most the next ordinal, ordinals non-decreasing, and each
once-only category at most once and not already used), the whole chain of
appends succeeds and appends exactly the concatenated formatted tokens. -/
theorem runAppends_valid_aux (ops : List (Cat × String)) :
    ∀ b : Builder,
    ordsNondecreasing b.order (ops.map Prod.fst) = true →
    (b.useElement = true → (ops.map Prod.fst).count Cat.element = 0) →
    (b.useId = true → (ops.map Prod.fst).count Cat.id = 0) →
    (b.usePseudoElement = true → (ops.map Prod.fst).count Cat.pseudoElement = 0) →
    (ops.map Prod.fst).count Cat.element ≤ 1 →
    (ops.map Prod.fst).count Cat.id ≤ 1 →
    (ops.map Prod.fst).count Cat.pseudoElement ≤ 1 →
    (runAppends b ops).1 = none ∧
      ((runAppends b ops).2).value = b.value ++ tokens ops := by
  induction ops with
  | nil =>
    intro b _ _ _ _ _ _ _
    exact ⟨rfl, by simp [runAppends, tokens]⟩
  | cons p rest ih =>
    intro b hchain hel hid hpe hcel hcid hcpe
    obtain ⟨c, v⟩ := p
    have hsub : ∀ x : Cat, (rest.map Prod.fst).count x
        ≤ (((c, v) :: rest).map Prod.fst).count x :=
      fun x => (List.sublist_cons_self c (rest.map Prod.fst)).count_le x
    have hgf : c.guardSet b = false := by
      cases c with
      | element =>
        cases he : b.useElement
        · exact he
        · exfalso
          have h0 := hel he
          have h1 : (((Cat.element, v) :: rest).map Prod.fst).count Cat.element
              = (rest.map Prod.fst).count Cat.element + 1 :=
            List.count_cons_self Cat.element (rest.map Prod.fst)
          omega
      | id =>
        cases he : b.useId
        · exact he
        · exfalso
          have h0 := hid he
          have h1 : (((Cat.id, v) :: rest).map Prod.fst).count Cat.id
              = (rest.map Prod.fst).count Cat.id + 1 :=
            List.count_cons_self Cat.id (rest.map Prod.fst)
          omega
      | pseudoElement =>
        cases he : b.usePseudoElement
        · exact he
        · exfalso
          have h0 := hpe he
          have h1 : (((Cat.pseudoElement, v) :: rest).map Prod.fst).count Cat.pseudoElement
              = (rest.map Prod.fst).count Cat.pseudoElement + 1 :=
            List.count_cons_self Cat.pseudoElement (rest.map Prod.fst)
          omega
      | «class» => rfl
      | attr => rfl
      | pseudoClass => rfl
    simp only [List.map_cons, ordsNondecreasing, Bool.and_eq_true, decide_eq_true_eq] at hchain
    obtain ⟨hord, hchain2⟩ := hchain
    have happ : b.append c v = (none,
        { b with
          order := c.ordinal,
          value := b.value ++ c.token v,
          useElement := b.useElement || c.isElement,
          useId := b.useId || c.isId,
          usePseudoElement := b.usePseudoElement || c.isPseudoElement }) := by
      rw [append_eq, if_neg (by simp [hgf]), if_neg (Nat.not_lt.mpr hord)]
    have hel2 : (b.useElement || c.isElement) = true →
        (rest.map Prod.fst).count Cat.element = 0 := by
      intro h
      rcases (by simpa using h : b.useElement = true ∨ c.isElement = true) with h | h
      · have h0 := hel h
        have h1 := hsub Cat.element
        omega
      · have hc : c = Cat.element := (Cat.isElement_iff c).mp h
        subst hc
        have h1 : (((Cat.element, v) :: rest).map Prod.fst).count Cat.element
            = (rest.map Prod.fst).count Cat.element + 1 :=
          List.count_cons_self Cat.element (rest.map Prod.fst)
        omega
    have hid2 : (b.useId || c.isId) = true →
        (rest.map Prod.fst).count Cat.id = 0 := by
      intro h
      rcases (by simpa using h : b.useId = true ∨ c.isId = true) with h | h
      · have h0 := hid h
        have h1 := hsub Cat.id
        omega
      · have hc : c = Cat.id := (Cat.isId_iff c).mp h
        subst hc
        have h1 : (((Cat.id, v) :: rest).map Prod.fst).count Cat.id
            = (rest.map Prod.fst).count Cat.id + 1 :=
          List.count_cons_self Cat.id (rest.map Prod.fst)
        omega
    have hpe2 : (b.usePseudoElement || c.isPseudoElement) = true →
        (rest.map Prod.fst).count Cat.pseudoElement = 0 := by
      intro h
      rcases (by simpa using h : b.usePseudoElement = true ∨ c.isPseudoElement = true) with h | h
      · have h0 := hpe h
        have h1 := hsub Cat.pseudoElement
        omega
      · have hc : c = Cat.pseudoElement := (Cat.isPseudoElement_iff c).mp h
        subst hc
        have h1 : (((Cat.pseudoElement, v) :: rest).map Prod.fst).count Cat.pseudoElement
            = (rest.map Prod.fst).count Cat.pseudoElement + 1 :=
          List.count_cons_self Cat.pseudoElement (rest.map Prod.fst)
        omega
    have hcel2 : (rest.map Prod.fst).count Cat.element ≤ 1 :=
      le_trans (hsub Cat.element) hcel
    have hcid2 : (rest.map Prod.fst).count Cat.id ≤ 1 :=
      le_trans (hsub Cat.id) hcid
    have hcpe2 : (rest.map Prod.fst).count Cat.pseudoElement ≤ 1 :=
      le_trans (hsub Cat.pseudoElement) hcpe
    rw [runAppends_cons_ok rest happ]
    have hres := ih
      ({ b with
         order := c.ordinal,
         value := b.value ++ c.token v,
         useElement := b.useElement || c.isElement,
         useId := b.useId || c.isId,
         usePseudoElement := b.usePseudoElement || c.isPseudoElement })
      hchain2 hel2 hid2 hpe2 hcel2 hcid2 hcpe2
    refine ⟨hres.1, ?_⟩
    rw [hres.2]
    show b.value ++ Cat.token c v ++ tokens rest = b.value ++ (Cat.token c v ++ tokens rest)
    exact String.append_assoc _ _ _

/-- C1: for every chain of appends whose categories are in valid order
(ordinals non-decreasing — element, id, class*, attribute*, pseudo-class*,
pseudo-element — with element, id and pseudo-element each at most once),
every append succeeds and the subsequent render returns the concatenation,
in append order with no separators, of the formatted tokens. -/
theorem c1_valid_chain_renders (ops : List (Cat × String))
    (h : validOrder (ops.map Prod.fst)) :
    (runAppends Builder.init ops).1 = none ∧
    ((runAppends Builder.init ops).2).stringify.1 = tokens ops := by
  obtain ⟨hchain, hcel, hcid, hcpe⟩ := h
  have hres := runAppends_valid_aux ops Builder.init hchain
    (fun h => nomatch h) (fun h => nomatch h) (fun h => nomatch h) hcel hcid hcpe
  exact ⟨hres.1, hres.2⟩

/-- Witness for C1: `id('main')` then `class('container')` then
`class('editable')` then `render()` gives `'#main.container.editable'`. -/
theorem c1_valid_chain_renders_witness :
    (runAppends Builder.init
      [(Cat.id, "main"), (Cat.«class», "container"), (Cat.«class», "editable")]).1 = none ∧
    ((runAppends Builder.init
      [(Cat.id, "main"), (Cat.«class», "container"), (Cat.«class», "editable")]).2).stringify.1
      = "#main.container.editable" := by
  have h := c1_valid_chain_renders
    [(Cat.id, "main"), (Cat.«class», "container"), (Cat.«class», "editable")] (by decide)
  exact ⟨h.1, h.2.trans (by decide)⟩

end CssBuilder
